import Mathlib

set_option maxRecDepth 100000
set_option maxHeartbeats 1000000

/-!
# Verification of the robot_brain intent-classification and dispatch core

Shallow embedding of `src/robot_brain/core/intent.py`,
`src/robot_brain/core/task_manager.py` and
`src/robot_brain/actions/school_roles.py`.

Strings are modelled as `List Char` internally (Python `str`), confidences as
`ℚ` (the Python floats here are always small fractions `k/n`, `n ≤ 4`, plus the
threshold `0.6`; on those values float and exact rational comparisons agree).
The regex patterns of the catalog are all literal phrases, optionally ending in
`\s+`; they are modelled by a literal together with a trailing-whitespace flag.
-/

namespace RobotBrain

/-- Python `str.isspace`-style whitespace test for the characters that occur
in this system (`str.strip` / `str.split` / regex `\s`). -/
def isWs (c : Char) : Bool := c.isWhitespace

/-- Drop leading whitespace (half of Python `str.strip`). -/
def dropLeadWs (s : List Char) : List Char := s.dropWhile isWs

/-- Python `str.strip()`: remove leading and trailing whitespace. -/
def strip (s : List Char) : List Char :=
  (dropLeadWs ((dropLeadWs s.reverse).reverse))

/-- Python `str.split()` with no argument: split at every whitespace character
and discard the empty pieces, leaving the maximal whitespace-free runs. -/
def wordsOf (s : List Char) : List (List Char) :=
  (s.splitOnP isWs).filter (fun w => !w.isEmpty)

/-- Python `needle in haystack` on strings: substring occurrence
(also what `re.search` does for a pure-literal pattern). -/
def isSub (n : List Char) (h : List Char) : Bool :=
  n.isPrefixOf h ||
    (match h with
     | [] => false
     | _ :: t => isSub n t)

/-- `re.search` for a literal followed by `\s+`: some occurrence of `lit`
immediately followed by at least one whitespace character. -/
def litWsAt (lit text : List Char) : Bool :=
  lit.isPrefixOf text &&
    (match text.drop lit.length with
     | [] => false
     | c :: _ => isWs c)

/-- Search every start position of `text` for `lit` followed by whitespace. -/
def searchLitWs (lit : List Char) (text : List Char) : Bool :=
  litWsAt lit text ||
    (match text with
     | [] => false
     | _ :: rest => searchLitWs lit rest)

/-- Python `str.replace(pat, '')` (all non-overlapping occurrences, left to
right), written with structural fuel so the kernel can evaluate it. Each step
consumes at least one character of the text, so fuel `t.length` (supplied by
`replaceAll`) always suffices and the `0`-fuel fallback is unreachable;
`pat` is never empty in the source's calls. -/
def replaceAllAux (pat : List Char) : Nat → List Char → List Char
  | _, [] => []
  | 0, t => t
  | fuel + 1, c :: rest =>
    if pat.isPrefixOf (c :: rest) ∧ pat ≠ [] then
      replaceAllAux pat fuel ((c :: rest).drop pat.length)
    else
      c :: replaceAllAux pat fuel rest

/-- Python `str.replace(pat, '')`. -/
def replaceAll (pat t : List Char) : List Char := replaceAllAux pat t.length t

/-- Python `str.lower()` (ASCII case folding; the catalog and the claims only
involve ASCII case distinctions, Bangla has no case). -/
def lowerStr (s : List Char) : List Char := s.map Char.toLower

/-! ## `intent.py`: data model -/

/-- `IntentType` enum (`intent.py` lines 14-24). -/
inductive IntentType where
  | GREETING
  | QUESTION
  | COMMAND
  | ENTERTAINMENT
  | CAMERA_CAPTURE
  | FACE_RECOGNITION
  | MOVEMENT
  | SEARCH
  | UNKNOWN
deriving DecidableEq, Repr

/-- The `.value` string of each `IntentType` member. -/
def IntentType.value : IntentType → String
  | .GREETING => "greeting"
  | .QUESTION => "question"
  | .COMMAND => "command"
  | .ENTERTAINMENT => "entertainment"
  | .CAMERA_CAPTURE => "camera_capture"
  | .FACE_RECOGNITION => "face_recognition"
  | .MOVEMENT => "movement"
  | .SEARCH => "search"
  | .UNKNOWN => "unknown"

/-- The `Intent` dataclass (`intent.py` lines 26-33). -/
structure Intent where
  type : IntentType
  confidence : ℚ
  parameters : List (String × String)
  original_text : String
  language : String
deriving DecidableEq, Repr

/-- One catalog regex: a literal phrase plus whether the regex ends in `\s+`.
Every pattern in `_load_bangla_patterns` / `_load_english_patterns` has one of
these two shapes. -/
structure Pat where
  lit : String
  ws : Bool
deriving DecidableEq, Repr

/-- Abbreviation for a plain-literal pattern. -/
def p0 (s : String) : Pat := ⟨s, false⟩

/-- Abbreviation for a literal-then-`\s+` pattern. -/
def pW (s : String) : Pat := ⟨s, true⟩

/-- `_load_bangla_patterns` (`intent.py` lines 49-107); kinds absent from the
dict map to no patterns. -/
def banglaPatterns : IntentType → List Pat
  | .GREETING =>
    [p0 "আসসালামু আলাইকুম", p0 "নমস্কার", p0 "হ্যালো", p0 "কেমন আছেন",
     p0 "কেমন আছো", p0 "ভালো আছেন", p0 "ভালো আছো"]
  | .QUESTION =>
    [pW "কি", pW "কী", pW "কেন", pW "কখন", pW "কোথায়", pW "কিভাবে",
     pW "কাদের", pW "কাদেরকে", p0 "জানতে চাই", p0 "বলুন", p0 "বলো",
     p0 "কি জানেন", p0 "কি জানো"]
  | .ENTERTAINMENT =>
    [p0 "কৌতুক", p0 "জোক", p0 "গল্প", p0 "গান", p0 "মজার", p0 "হাসির",
     p0 "বিনোদন"]
  | .CAMERA_CAPTURE =>
    [p0 "ছবি তুলো", p0 "ফটো নাও", p0 "চিত্র ধারণ", p0 "ক্যামেরা", p0 "আমার ছবি"]
  | .MOVEMENT =>
    [p0 "এগিয়ে যাও", p0 "পিছনে যাও", p0 "ডানে যাও", p0 "বামে যাও",
     p0 "ঘুরো", p0 "হাত নাড়াও", p0 "মাথা নাড়াও"]
  | .SEARCH =>
    [p0 "খুঁজে বের করো", p0 "ইন্টারনেটে দেখো", p0 "গুগলে দেখো", p0 "অনলাইনে দেখো"]
  | _ => []

/-- `_load_english_patterns` (`intent.py` lines 109-169). -/
def englishPatterns : IntentType → List Pat
  | .GREETING =>
    [p0 "hello", p0 "hi", p0 "hey", p0 "good morning", p0 "good afternoon",
     p0 "good evening", p0 "how are you", p0 "how do you do", p0 "nice to meet you"]
  | .QUESTION =>
    [pW "what", pW "why", pW "when", pW "where", pW "how", pW "who", pW "which",
     p0 "can you tell me", p0 "do you know", p0 "explain", p0 "describe"]
  | .ENTERTAINMENT =>
    [p0 "tell me a joke", p0 "joke", p0 "funny", p0 "story", p0 "sing",
     p0 "entertainment", p0 "play"]
  | .CAMERA_CAPTURE =>
    [p0 "take a picture", p0 "take my photo", p0 "capture", p0 "camera",
     p0 "snapshot", p0 "photograph"]
  | .MOVEMENT =>
    [p0 "move forward", p0 "move backward", p0 "turn left", p0 "turn right",
     p0 "wave hand", p0 "nod head", p0 "walk"]
  | .SEARCH =>
    [p0 "search for", p0 "look up", p0 "find information", p0 "google",
     p0 "internet search"]
  | _ => []

/-- The insertion order of the two pattern dicts: the kinds `recognize`
iterates over, in `dict.items()` order. -/
def kindOrder : List IntentType :=
  [.GREETING, .QUESTION, .ENTERTAINMENT, .CAMERA_CAPTURE, .MOVEMENT, .SEARCH]

/-- `recognize` line 185: Bangla patterns iff `language == 'bn'`, otherwise the
English ones. -/
def patternsFor (lang : String) (k : IntentType) : List Pat :=
  if lang = "bn" then banglaPatterns k else englishPatterns k

/-! ## `intent.py`: confidence calculation -/

/-- `re.search(pattern, text)` for a catalog pattern (the "exact match" test of
`_calculate_confidence`, line 217). -/
def reSearch (p : Pat) (text : List Char) : Bool :=
  if p.ws then searchLitWs p.lit.toList text else isSub p.lit.toList text

/-- `pattern.replace(r'\s+', ' ').split()` (line 222): the words of the
literal part (the trailing `\s+` contributes only trailing space, which
`split` drops). -/
def patWords (p : Pat) : List (List Char) := wordsOf p.lit.toList

/-- The inner double loop of the partial match (lines 224-229): a text word
counts if some pattern word is in a symmetric substring relation with it
(the `break` makes it count at most once). -/
def countMatches (ws pws : List (List Char)) : Nat :=
  List.countP (fun w => pws.any (fun pw => isSub w pw || isSub pw w)) ws

/-- The per-pattern confidence of `_calculate_confidence` (lines 216-231):
1.0 on a regex match, otherwise `matches / len(pattern_words)` (written as
`mkRat`, the rational `matches / len(pattern_words)`; see
`patScore_else_eq_div`). -/
def patScore (text : List Char) (p : Pat) : ℚ :=
  if reSearch p text then 1
  else
    let pws := patWords p
    if pws.length = 0 then 0
    else mkRat (countMatches (wordsOf text) pws) (pws.length)

/-- `_calculate_confidence` (lines 211-235): maximum pattern score, starting
from 0.0. -/
def calcConf (text : List Char) (ps : List Pat) : ℚ :=
  ps.foldl (fun acc p => max acc (patScore text p)) 0

/-! ## `intent.py`: parameter extraction -/

def questionWordsBn : List String :=
  ["কি", "কী", "কেন", "কখন", "কোথায়", "কিভাবে", "কাদের", "কাদেরকে"]

def questionWordsEn : List String :=
  ["what", "why", "when", "where", "how", "who", "which"]

/-- The loop `text = text.replace(word, '').strip()` over a word list
(`_extract_parameters`, question branch). -/
def stripWords (text : List Char) (ws : List String) : List Char :=
  ws.foldl (fun t w => strip (replaceAll w.toList t)) text

def searchPrefixesBn : List String :=
  ["খুঁজে বের করো", "ইন্টারনেটে দেখো", "গুগলে দেখো", "অনলাইনে দেখো"]

def searchPrefixesEn : List String :=
  ["search for", "look up", "find information about", "google"]

/-- The search-prefix loop with `break` (lines 288-299): first prefix that
occurs in the text wins; no prefix, no `query` key. -/
def firstPrefix (text : List Char) : List String → List (String × String)
  | [] => []
  | p :: rest =>
    if isSub p.toList text then
      [("query", String.mk (strip (replaceAll p.toList text)))]
    else firstPrefix text rest

/-- `_extract_parameters` (lines 237-301). The Python call site can pass
`intent_type = None` (when `best_intent` is `None`), in which case every
branch test fails and `{}` is returned, hence the `Option`. -/
def extractParameters (text : List Char) (it : Option IntentType) (lang : String) :
    List (String × String) :=
  if it = some .QUESTION then
    let t :=
      if lang = "bn" then stripWords text questionWordsBn
      else stripWords text questionWordsEn
    [("topic", String.mk t)]
  else if it = some .CAMERA_CAPTURE then
    if lang = "bn" then
      if ["আমার", "আমাকে", "সেলফি"].any (fun w => isSub w.toList text) then
        [("target", "self")]
      else []
    else
      if ["my", "me", "selfie"].any (fun w => isSub w.toList text) then
        [("target", "self")]
      else []
  else if it = some .MOVEMENT then
    if lang = "bn" then
      if isSub "এগিয়ে".toList text || isSub "সামনে".toList text then
        [("direction", "forward")]
      else if isSub "পিছনে".toList text then [("direction", "backward")]
      else if isSub "ডানে".toList text then [("direction", "right")]
      else if isSub "বামে".toList text then [("direction", "left")]
      else []
    else
      if isSub "forward".toList text then [("direction", "forward")]
      else if isSub "backward".toList text || isSub "back".toList text then
        [("direction", "backward")]
      else if isSub "left".toList text then [("direction", "left")]
      else if isSub "right".toList text then [("direction", "right")]
      else []
  else if it = some .SEARCH then
    if lang = "bn" then firstPrefix text searchPrefixesBn
    else firstPrefix text searchPrefixesEn
  else []

/-! ## `intent.py`: `recognize` -/

/-- `text.lower().strip()` (line 182). -/
def normalize (s : String) : List Char := strip (lowerStr s.toList)

/-- The confidence `recognize` computes for one intent kind. -/
def kindScore (text lang : String) (k : IntentType) : ℚ :=
  calcConf (normalize text) (patternsFor lang k)

/-- The best-intent loop of `recognize` (lines 187-196): strict improvement
only, so the first kind reaching the maximum is kept. -/
def bestLoop (score : IntentType → ℚ) : List IntentType → Option IntentType → ℚ →
    Option IntentType × ℚ
  | [], b, c => (b, c)
  | k :: rest, b, c =>
    if score k > c then bestLoop score rest (some k) (score k)
    else bestLoop score rest b c

/-- `(best_intent, best_confidence)` after the loop, from `(None, 0.0)`. -/
def classifyBest (text lang : String) : Option IntentType × ℚ :=
  bestLoop (kindScore text lang) kindOrder none 0

/-- The action threshold `self.confidence_threshold = 0.6` (line 47), the
rational `3/5` (see `confidenceThreshold_eq_div`). -/
def confidenceThreshold : ℚ := mkRat 3 5

/-- `IntentRecognizer.recognize` (lines 171-209). -/
def recognize (text lang : String) : Intent :=
  let t := normalize text
  let bc := classifyBest text lang
  let params :=
    if bc.2 ≥ confidenceThreshold then extractParameters t bc.1 lang else []
  { type := bc.1.getD .UNKNOWN
    confidence := bc.2
    parameters := params
    original_text := String.mk t
    language := lang }

/-! ## `memory.py`: the slice of `MemoryManager` state the dispatcher uses

The dispatcher reads user profiles (`get_user_preferences`) and appends
conversation rows (`add_conversation`). The SQLite persistence mechanics are
out of scope per the spec; state is modelled as in-memory lists. -/

/-- One row of the `conversations` table, as written by `add_conversation`. -/
structure ConvRec where
  user_name : Option String
  input_text : String
  input_language : String
  intent_type : String
  response_text : Option String
  response_language : Option String
  confidence : ℚ
deriving DecidableEq, Repr

/-- The profile fields of a `people` row that `get_user_preferences` exposes
to the handlers. -/
structure Person where
  role : String
  language_preference : String
deriving DecidableEq, Repr

/-- The mutable state the task manager touches: the people table, the
append-only conversation log, and (for observability of C3) the sequence of
motor commands issued to `MotionController`. -/
structure Mem where
  people : List (String × Person)
  convs : List ConvRec
  motions : List String
deriving DecidableEq, Repr

/-- `MemoryManager.add_conversation`: append one row. -/
def addConversation (m : Mem) (user : Option String) (text lang itype : String)
    (resp rlang : Option String) (conf : ℚ) : Mem :=
  { m with convs := m.convs ++ [⟨user, text, lang, itype, resp, rlang, conf⟩] }

/-- The `role` that `user_info.get('role', 'friend')` yields after
`get_user_preferences`: the stored role, or `'friend'` for an unknown user
(whose preference dict is `{}`). -/
def roleOf (m : Mem) (u : String) : String :=
  match m.people.lookup u with
  | some p => p.role
  | none => "friend"

/-- Likewise `user_info.get('language_preference', 'bn')`. -/
def langPrefOf (m : Mem) (u : String) : String :=
  match m.people.lookup u with
  | some p => p.language_preference
  | none => "bn"

/-- Python truthiness of the `current_user` argument (`if current_user:`):
`None` and the empty string are falsy. -/
def truthy : Option String → Bool
  | none => false
  | some s => !s.isEmpty

/-! ## `task_manager.py`: handlers and dispatch -/

/-- Outcome of invoking a handler: a normal return, or a raised exception
(caught at the `handle_intent` boundary). -/
inductive HOutcome where
  | ok (s : String)
  | exn
deriving DecidableEq, Repr

/-- A handler as `handle_intent` sees it: it may read and update the shared
state and either return a string or raise. -/
def Handler : Type := Mem → Intent → Option String → HOutcome × Mem

/-- The generic greeting of `_handle_greeting` for an unknown caller
(lines 111-116). -/
def genericGreeting (lang : String) : String :=
  if lang = "bn" then
    "আসসালামু আলাইকুম! আমি আপনার রোবট সহকারী। আমি আপনার সাথে কথা বলতে প্রস্তুত।"
  else
    "Hello! I\x27m your robot assistant. I\x27m ready to help you."

/-- `_handle_greeting` (lines 85-116). -/
def greetingH : Handler := fun m i user =>
  if truthy user then
    let u := user.getD ""
    let role := roleOf m u
    let pref := langPrefOf m u
    let s :=
      if pref = "bn" then
        if role = "principal" then
          "আসসালামু আলাইকুম, প্রিন্সিপাল স্যার! আপনার সাথে দেখা করে খুবই ভালো লাগছে।"
        else if role = "teacher" then "আসসালামু আলাইকুম, স্যার! কেমন আছেন?"
        else if role = "student" then "হ্যালো! কেমন আছো? আজকে ক্লাস কেমন গেছে?"
        else "আসসালামু আলাইকুম, " ++ u ++ "! কেমন আছেন?"
      else
        if role = "principal" then "Good day, Principal! It\x27s wonderful to see you."
        else if role = "teacher" then "Hello, Sir! How are you today?"
        else if role = "student" then "Hi there! How was your class today?"
        else "Hello, " ++ u ++ "! Great to see you."
    (HOutcome.ok s, m)
  else
    (HOutcome.ok (genericGreeting i.language), m)

/-- The refusal string of `_handle_movement` (lines 220-224). -/
def movementRefusal (lang : String) : String :=
  if lang = "bn" then
    "দুঃখিত, আমি শুধুমাত্র শিক্ষক বা প্রিন্সিপালের নির্দেশে চলাফেরা করতে পারি।"
  else
    "Sorry, I can only move when instructed by teachers or the principal."

/-- `_handle_movement` (lines 210-249). The permission check runs only under
`if current_user:`; an absent (or empty-string) caller skips it entirely and
goes straight to the motor commands. `MotionController` calls are modelled as
always succeeding, recorded in `Mem.motions`. -/
def movementH : Handler := fun m i user =>
  let direction := ((i.parameters.lookup "direction").getD "")
  let execute : HOutcome × Mem :=
    let cmd :=
      if direction = "forward" then "move_forward"
      else if direction = "backward" then "move_backward"
      else if direction = "left" then "turn_left"
      else if direction = "right" then "turn_right"
      else "wave_hand"
    let msg :=
      if i.language = "bn" then "ঠিক আছে, আমি " ++ direction ++ " দিকে যাচ্ছি।"
      else "Okay, moving " ++ direction ++ "."
    (HOutcome.ok msg, { m with motions := m.motions ++ [cmd] })
  if truthy user then
    let role := roleOf m (user.getD "")
    if !(["principal", "teacher", "admin"].contains role) then
      (HOutcome.ok (movementRefusal i.language), m)
    else execute
  else execute

/-- The message of `_handle_unknown` (lines 289-294). -/
def unknownMessage (lang : String) : String :=
  if lang = "bn" then
    "দুঃখিত, আমি বুঝতে পারিনি। আপনি কি বলতে চেয়েছেন? আবার বলুন দয়া করে।"
  else
    "Sorry, I didn\x27t understand. What would you like me to do? Please try again."

/-- `_handle_unknown` (lines 289-294). -/
def unknownH : Handler := fun m i _ => (HOutcome.ok (unknownMessage i.language), m)

/-- `_get_error_response` (lines 296-301). -/
def getErrorResponse (lang : String) : String :=
  if lang = "bn" then "দুঃখিত, কিছু সমস্যা হয়েছে। আবার চেষ্টা করুন।"
  else "Sorry, something went wrong. Please try again."

/-- The handlers whose bodies depend on out-of-scope external collaborators
(spec §1: the generative-AI backend, web search, camera hardware, content
tables). No claim constrains their internals; the dispatch layer treats them
as arbitrary `Handler`s. -/
structure Ext where
  questionH : Handler
  entertainmentH : Handler
  cameraH : Handler
  searchH : Handler

/-- `_initialize_handlers` (lines 26-36) combined with the
`self.handlers.get(intent.type, self._handle_unknown)` lookup of line 62:
the dict has entries for the seven listed kinds; `COMMAND` and
`FACE_RECOGNITION` have no entry and fall back to `_handle_unknown`. -/
def handlerFor (ext : Ext) : IntentType → Handler
  | .GREETING => greetingH
  | .QUESTION => ext.questionH
  | .ENTERTAINMENT => ext.entertainmentH
  | .CAMERA_CAPTURE => ext.cameraH
  | .MOVEMENT => movementH
  | .SEARCH => ext.searchH
  | .UNKNOWN => unknownH
  | .COMMAND => unknownH
  | .FACE_RECOGNITION => unknownH

/-- `TaskManager.handle_intent` (lines 38-83), generic in the handler the
dict lookup produced: pre-response log, handler invocation with the exception
caught at this boundary, post-response log only when the response is truthy,
and the response (or the localized error string) returned. -/
def handle_intent (h : Handler) (m : Mem) (intent : Intent) (text lang : String)
    (user : Option String) : String × Mem :=
  match h (addConversation m user text lang intent.type.value none none intent.confidence)
      intent user with
  | (HOutcome.exn, m2) => (getErrorResponse lang, m2)
  | (HOutcome.ok r, m2) =>
    if r.isEmpty then (r, m2)
    else (r, addConversation m2 user text lang intent.type.value (some r) (some lang)
              intent.confidence)

/-- `handle_intent` with the concrete handler table of `_initialize_handlers`. -/
def taskHandleIntent (ext : Ext) (m : Mem) (intent : Intent) (text lang : String)
    (user : Option String) : String × Mem :=
  handle_intent (fun m' i u => handlerFor ext i.type m' i u) m intent text lang user

/-! ## `school_roles.py`: the permission table and `check_permission` -/

/-- `self.role_permissions` (`school_roles.py` lines 43-48). -/
def role_permissions : List (String × List String) :=
  [("student", ["ask_questions", "request_help", "entertainment"]),
   ("teacher", ["ask_questions", "request_help", "entertainment", "take_photos",
                "student_info"]),
   ("principal", ["ask_questions", "request_help", "entertainment", "take_photos",
                  "student_info", "reports", "system_control"]),
   ("admin", ["all_permissions"])]

/-- `SchoolRoleManager.check_permission` (lines 89-115): unknown role is
denied; the `all_permissions` wildcard grants everything; otherwise the
action must be listed. (The `except` clause is unreachable: membership tests
on these values cannot raise.) -/
def check_permission (user_role action : String) : Bool :=
  match role_permissions.lookup user_role with
  | none => false
  | some perms =>
    if perms.contains "all_permissions" then true
    else perms.contains action

/-! ## Helper lemmas -/

theorem patScore_else_eq_div (k n : ℕ) :
    (mkRat k n : ℚ) = (k : ℚ) / (n : ℚ) := by
  rw [Rat.mkRat_eq_div]
  push_cast
  rfl

theorem confidenceThreshold_eq_div : confidenceThreshold = 3 / 5 := by
  unfold confidenceThreshold
  rw [Rat.mkRat_eq_div]
  norm_num

theorem patScore_nonneg (text : List Char) (p : Pat) : 0 ≤ patScore text p := by
  unfold patScore
  split
  · norm_num
  · dsimp only
    split
    · exact le_refl 0
    · rw [patScore_else_eq_div]
      exact div_nonneg (Nat.cast_nonneg _) (Nat.cast_nonneg _)

theorem foldl_max_init_le (f : Pat → ℚ) (ps : List Pat) (c : ℚ) :
    c ≤ ps.foldl (fun acc p => max acc (f p)) c := by
  induction ps generalizing c with
  | nil => simp
  | cons p rest ih => exact le_trans (le_max_left _ _) (ih _)

theorem foldl_max_le (f : Pat → ℚ) (ps : List Pat) (c : ℚ) (p : Pat) (hp : p ∈ ps) :
    f p ≤ ps.foldl (fun acc p => max acc (f p)) c := by
  induction ps generalizing c with
  | nil => cases hp
  | cons q rest ih =>
    rcases List.mem_cons.mp hp with h | h
    · subst h
      exact le_trans (le_max_right _ _) (foldl_max_init_le f rest _)
    · exact ih _ h

theorem calcConf_nonneg (text : List Char) (ps : List Pat) : 0 ≤ calcConf text ps :=
  foldl_max_init_le _ ps 0

theorem patScore_le_calcConf (text : List Char) (ps : List Pat) (p : Pat) (hp : p ∈ ps) :
    patScore text p ≤ calcConf text ps :=
  foldl_max_le _ ps 0 p hp

theorem calcConf_eq_zero_iff (text : List Char) (ps : List Pat) :
    calcConf text ps = 0 ↔ ∀ p ∈ ps, patScore text p = 0 := by
  constructor
  · intro h p hp
    exact le_antisymm (h ▸ patScore_le_calcConf text ps p hp) (patScore_nonneg text p)
  · intro h
    unfold calcConf
    induction ps with
    | nil => rfl
    | cons p rest ih =>
      have hp : patScore text p = 0 := h p (List.mem_cons_self _ _)
      simp only [List.foldl_cons, hp, max_self]
      exact ih (fun q hq => h q (List.mem_cons_of_mem _ hq))

theorem bestLoop_conf_le (score : IntentType → ℚ) (ks : List IntentType)
    (b : Option IntentType) (c : ℚ) : c ≤ (bestLoop score ks b c).2 := by
  induction ks generalizing b c with
  | nil => exact le_refl c
  | cons k rest ih =>
    unfold bestLoop
    split
    · exact le_trans (le_of_lt (by assumption)) (ih _ _)
    · exact ih _ _

theorem bestLoop_score_le (score : IntentType → ℚ) (ks : List IntentType)
    (b : Option IntentType) (c : ℚ) (k : IntentType) (hk : k ∈ ks) :
    score k ≤ (bestLoop score ks b c).2 := by
  induction ks generalizing b c with
  | nil => cases hk
  | cons k0 rest ih =>
    unfold bestLoop
    rcases List.mem_cons.mp hk with h | h
    · subst h
      split
      · exact bestLoop_conf_le score rest _ _
      · exact le_trans (not_lt.mp (by assumption)) (bestLoop_conf_le score rest _ _)
    · split
      · exact ih _ _ h
      · exact ih _ _ h

theorem bestLoop_cases (score : IntentType → ℚ) (ks : List IntentType)
    (b : Option IntentType) (c : ℚ) :
    bestLoop score ks b c = (b, c) ∨
      ∃ k, k ∈ ks ∧ (bestLoop score ks b c).1 = some k ∧
        (bestLoop score ks b c).2 = score k ∧ c < score k := by
  induction ks generalizing b c with
  | nil => exact Or.inl rfl
  | cons k0 rest ih =>
    unfold bestLoop
    split
    · rcases ih (some k0) (score k0) with h | ⟨k, hk, h1, h2, h3⟩
      · refine Or.inr ⟨k0, List.mem_cons_self _ _, ?_, ?_, by assumption⟩
        · rw [h]
        · rw [h]
      · exact Or.inr ⟨k, List.mem_cons_of_mem _ hk, h1, h2,
          lt_trans (by assumption) h3⟩
    · rcases ih b c with h | ⟨k, hk, h1, h2, h3⟩
      · exact Or.inl h
      · exact Or.inr ⟨k, List.mem_cons_of_mem _ hk, h1, h2, h3⟩

/-- Either no kind beats 0 and the classifier loop ends at `(None, 0.0)`, or
it ends at a first-reached arg-max kind with a positive score. -/
theorem classifyBest_spec (text lang : String) :
    (classifyBest text lang = (none, 0) ∧ ∀ k ∈ kindOrder, kindScore text lang k = 0) ∨
    (∃ k, k ∈ kindOrder ∧ (classifyBest text lang).1 = some k ∧
      (classifyBest text lang).2 = kindScore text lang k ∧ 0 < kindScore text lang k ∧
      ∀ k2 ∈ kindOrder, kindScore text lang k2 ≤ kindScore text lang k) := by
  rcases bestLoop_cases (kindScore text lang) kindOrder none 0 with h | ⟨k, hk, h1, h2, h3⟩
  · left
    have hcb : classifyBest text lang = (none, 0) := h
    refine ⟨hcb, fun k hk => le_antisymm ?_ ?_⟩
    · have := bestLoop_score_le (kindScore text lang) kindOrder none 0 k hk
      have hmono : kindScore text lang k ≤ (classifyBest text lang).2 := this
      rw [hcb] at hmono
      exact hmono
    · exact calcConf_nonneg _ _
  · right
    have h2' : (classifyBest text lang).2 = kindScore text lang k := h2
    refine ⟨k, hk, h1, h2', h3, fun k2 hk2 => ?_⟩
    have := bestLoop_score_le (kindScore text lang) kindOrder none 0 k2 hk2
    have hmono : kindScore text lang k2 ≤ (classifyBest text lang).2 := this
    rw [h2'] at hmono
    exact hmono

/-- `recognize` unfolded to its named components. -/
theorem recognize_eq (text lang : String) :
    recognize text lang =
      { type := (classifyBest text lang).1.getD .UNKNOWN
        confidence := (classifyBest text lang).2
        parameters :=
          if (classifyBest text lang).2 ≥ confidenceThreshold then
            extractParameters (normalize text) (classifyBest text lang).1 lang
          else []
        original_text := String.mk (normalize text)
        language := lang } := rfl

/-- `isSub` is exactly list-infix occurrence. -/
theorem isSub_iff_occursIn (n h : List Char) : isSub n h = true ↔ n <:+: h := by
  induction h with
  | nil =>
    unfold isSub
    simp only [Bool.or_false]
    rw [List.isPrefixOf_iff_prefix]
    simp [List.prefix_nil, List.infix_nil]
  | cons c t ih =>
    unfold isSub
    rw [Bool.or_eq_true, List.isPrefixOf_iff_prefix, ih, List.infix_cons_iff]

theorem kindOrder_not_unknown : IntentType.UNKNOWN ∉ kindOrder := by decide

/-! ## Claim theorems -/

/-- C2: for every input text and language, `recognize` returns an intent with
kind `Unknown`, confidence 0 and empty parameters if and only if every pattern
of every intent kind scores 0 against the (normalized) text; otherwise its
kind is a kind of the catalog whose pattern-set score is maximal over all
kinds — with no threshold condition on that score. -/
theorem recognize_unknown_iff_argmax (text lang : String) :
    (((recognize text lang).type = IntentType.UNKNOWN ∧
      (recognize text lang).confidence = 0 ∧
      (recognize text lang).parameters = []) ↔
      (∀ k ∈ kindOrder, ∀ p ∈ patternsFor lang k, patScore (normalize text) p = 0))
    ∧ ((∃ k ∈ kindOrder, ∃ p ∈ patternsFor lang k, patScore (normalize text) p ≠ 0) →
        (recognize text lang).type ≠ IntentType.UNKNOWN ∧
        (recognize text lang).type ∈ kindOrder ∧
        (recognize text lang).confidence =
          kindScore text lang ((recognize text lang).type) ∧
        ∀ k ∈ kindOrder,
          kindScore text lang k ≤ kindScore text lang ((recognize text lang).type)) := by
  rw [recognize_eq]
  rcases classifyBest_spec text lang with ⟨hcb, hall⟩ | ⟨k, hk, h1, h2, h3, hmax⟩
  · rw [hcb]
    dsimp only [Option.getD]
    constructor
    · constructor
      · intro _ k hk
        exact (calcConf_eq_zero_iff _ _).mp (hall k hk)
      · intro _
        refine ⟨rfl, rfl, ?_⟩
        rw [if_neg (by rw [confidenceThreshold_eq_div]; norm_num)]
    · rintro ⟨k, hk, p, hp, hps⟩
      exact absurd ((calcConf_eq_zero_iff _ _).mp (hall k hk) p hp) hps
  · have hcb : classifyBest text lang = (some k, kindScore text lang k) := by
      rw [← h1, ← h2]
    rw [hcb]
    dsimp only [Option.getD]
    constructor
    · constructor
      · rintro ⟨hu, -, -⟩
        exact absurd (hu ▸ hk) kindOrder_not_unknown
      · intro hz
        exact absurd ((calcConf_eq_zero_iff _ _).mpr (hz k hk)) (ne_of_gt h3)
    · intro _
      exact ⟨fun hu => absurd (hu ▸ hk) kindOrder_not_unknown, hk, rfl, hmax⟩

/-- C2 witness: on `"hello"` in English some pattern scores nonzero, and the
conclusions of the arg-max branch hold at that input. -/
theorem recognize_unknown_iff_argmax_witness :
    (recognize "hello" "en").type ≠ IntentType.UNKNOWN ∧
    (recognize "hello" "en").type ∈ kindOrder ∧
    (recognize "hello" "en").confidence =
      kindScore "hello" "en" ((recognize "hello" "en").type) ∧
    ∀ k ∈ kindOrder,
      kindScore "hello" "en" k ≤ kindScore "hello" "en" ((recognize "hello" "en").type) :=
  (recognize_unknown_iff_argmax "hello" "en").2
    ⟨IntentType.GREETING, by decide, p0 "hello", by decide, by decide⟩

/-- C4 counterexample: the claim bounds every returned confidence by 1, but
on the English text `"wal alk"` both words are substrings of the single
pattern word `walk`, so the partial-overlap score is `2/1 = 2`. -/
theorem recognize_confidence_exceeds_one :
    1 < (recognize "wal alk" "en").confidence := by decide

/-- C4 amended: the confidence returned by `recognize` is always ≥ 0, but it
is not bounded by 1: a pattern's partial-overlap score `matches /
len(pattern_words)` counts every input word that overlaps some pattern word
and can exceed 1. Only the lower bound of the claimed interval [0,1] holds. -/
theorem recognize_confidence_nonneg (text lang : String) :
    0 ≤ (recognize text lang).confidence := by
  rw [recognize_eq]
  exact bestLoop_conf_le (kindScore text lang) kindOrder none 0

/-- C5: `recognize` reports the best kind regardless of the threshold, while
the parameter map is `{}` when the confidence is below 0.6 and is the result
of `_extract_parameters` exactly when the confidence is ≥ 0.6. -/
theorem recognize_threshold_params (text lang : String) :
    (recognize text lang).type = (classifyBest text lang).1.getD IntentType.UNKNOWN ∧
    (((recognize text lang).confidence < confidenceThreshold ∧
      (recognize text lang).parameters = []) ∨
     (confidenceThreshold ≤ (recognize text lang).confidence ∧
      (recognize text lang).parameters =
        extractParameters (normalize text) (classifyBest text lang).1 lang)) := by
  rw [recognize_eq]
  refine ⟨rfl, ?_⟩
  by_cases hge : (classifyBest text lang).2 ≥ confidenceThreshold
  · exact Or.inr ⟨hge, if_pos hge⟩
  · exact Or.inl ⟨lt_of_not_ge hge, if_neg hge⟩

/-- C6 counterexample: classifying `"search for weather in Dhaka"` does NOT
yield kind `Search`: the Question pattern `explain` partially overlaps the
word `in` (score 1.0), Question precedes Search in the catalog iteration
order, and the loop only replaces the best kind on a strictly larger score. -/
theorem search_dhaka_kind_not_search :
    (recognize "search for weather in Dhaka" "en").type ≠ IntentType.SEARCH := by decide

/-- C6 amended: classifying `"search for weather in Dhaka"` yields kind =
Question with confidence 1.0 and `parameters.topic` = the lowercased text
(no interrogative token occurs, so nothing is stripped); no `query` parameter
is produced. Had the Search branch been reached, `query` would have been the
lowercased `"weather in dhaka"`, not `"weather in Dhaka"`. -/
theorem search_dhaka_actual :
    recognize "search for weather in Dhaka" "en" =
      { type := IntentType.QUESTION
        confidence := 1
        parameters := [("topic", "search for weather in dhaka")]
        original_text := "search for weather in dhaka"
        language := "en" } := by decide

/-- C9: in English camera-capture extraction the `target = "self"` entry is
produced iff `"my"`, `"me"` or `"selfie"` occurs as a substring (not a whole
word) of the normalized text; since `"me"` is a substring of `"camera"`, any
text containing `"camera"` gets `target = "self"`. -/
theorem camera_capture_target_self (text : List Char) :
    (((extractParameters text (some IntentType.CAMERA_CAPTURE) "en").lookup "target" =
        some "self") ↔
      (["my", "me", "selfie"].any (fun w => isSub w.toList text)) = true)
    ∧ (isSub "camera".toList text = true →
        (extractParameters text (some IntentType.CAMERA_CAPTURE) "en").lookup "target" =
          some "self") := by
  have hbranch : extractParameters text (some IntentType.CAMERA_CAPTURE) "en" =
      if ["my", "me", "selfie"].any (fun w => isSub w.toList text) then
        [("target", "self")]
      else [] := rfl
  have hiff : ((extractParameters text (some IntentType.CAMERA_CAPTURE) "en").lookup
      "target" = some "self") ↔
      (["my", "me", "selfie"].any (fun w => isSub w.toList text)) = true := by
    rw [hbranch]
    cases hc : ["my", "me", "selfie"].any (fun w => isSub w.toList text) with
    | true => simp
    | false => simp
  refine ⟨hiff, fun hcam => ?_⟩
  have h3 : "me".toList <:+: "camera".toList := by decide
  have h5 : isSub "me".toList text = true :=
    (isSub_iff_occursIn _ _).mpr (h3.trans ((isSub_iff_occursIn _ _).mp hcam))
  exact hiff.mpr (List.any_eq_true.mpr ⟨"me", by simp, h5⟩)

/-- C9 witness: the English utterance `"use the camera"` contains `"camera"`,
and extraction assigns `target = "self"` even though no self-reference was
intended. -/
theorem camera_capture_target_self_witness :
    (extractParameters "use the camera".toList
        (some IntentType.CAMERA_CAPTURE) "en").lookup "target" = some "self" :=
  (camera_capture_target_self "use the camera".toList).2 (by decide)

/-- C7: `check_permission` is a pure total function of `(role, action)`;
a role absent from the table is always denied, `admin` (whose entry is the
`all_permissions` wildcard) is always allowed, and any other present role is
allowed exactly when the action is listed for it. -/
theorem check_permission_spec (role action : String) :
    (role_permissions.lookup role = none → check_permission role action = false)
    ∧ check_permission "admin" action = true
    ∧ (∀ perms, role_permissions.lookup role = some perms →
        perms.contains "all_permissions" = false →
        (check_permission role action = true ↔ perms.contains action = true)) := by
  refine ⟨?_, rfl, ?_⟩
  · intro h
    unfold check_permission
    rw [h]
  · intro perms hl hw
    unfold check_permission
    rw [hl]
    dsimp only
    rw [hw]
    simp

/-- C7 witness: the `student` role (present, no wildcard) is allowed
`entertainment`, which its capability list contains. -/
theorem check_permission_spec_witness :
    check_permission "student" "entertainment" = true :=
  ((check_permission_spec "student" "entertainment").2.2
    ["ask_questions", "request_help", "entertainment"] rfl rfl).mpr rfl

/-- A handler outcome that, when it is a normal return, returns a non-empty
string. -/
def NonemptyOutcome : HOutcome → Prop
  | .ok s => s ≠ ""
  | .exn => True

/-- C1 (amended): `handle_intent` never raises — a handler exception is
caught and becomes the localized error string — and the returned string is
non-empty provided the handler never returns a normal *empty* string; the
code forwards a normal return verbatim (`return response`), so an empty
normal return reaches the caller unchanged (see
`handle_intent_empty_response`). -/
theorem handle_intent_no_raise_nonempty (h : Handler) (m : Mem) (i : Intent)
    (text lang : String) (user : Option String)
    (hne : ∀ m', NonemptyOutcome (h m' i user).1) :
    (handle_intent h m i text lang user).1 ≠ "" ∧
    ((h (addConversation m user text lang i.type.value none none i.confidence) i user).1 =
        HOutcome.exn →
      (handle_intent h m i text lang user).1 = getErrorResponse lang) := by
  unfold handle_intent
  rcases hh : h (addConversation m user text lang i.type.value none none i.confidence)
      i user with ⟨o, m2⟩
  cases o with
  | exn =>
    refine ⟨?_, fun _ => rfl⟩
    dsimp only
    unfold getErrorResponse
    split <;> decide
  | ok r =>
    have hr : r ≠ "" := by
      have hm := hne (addConversation m user text lang i.type.value none none i.confidence)
      rw [hh] at hm
      exact hm
    have hre : r.isEmpty = false := by
      cases hri : r.isEmpty
      · rfl
      · exact absurd ((String.isEmpty_iff r).mp hri) hr
    refine ⟨?_, fun hcon => absurd hcon (by simp)⟩
    dsimp only
    rw [hre]
    exact hr

/-- C1 witness: with a handler that normally returns the non-empty string
`"ready"`, `handle_intent` returns a non-empty string. -/
theorem handle_intent_no_raise_nonempty_witness :
    (handle_intent (fun m _ _ => (HOutcome.ok "ready", m)) ⟨[], [], []⟩
        ⟨IntentType.GREETING, 1, [], "hi", "en"⟩ "hi" "en" none).1 ≠ "" :=
  (handle_intent_no_raise_nonempty _ ⟨[], [], []⟩ ⟨IntentType.GREETING, 1, [], "hi", "en"⟩
    "hi" "en" none (fun _ => by exact (by decide : ("ready" : String) ≠ ""))).1

/-- C1 counterexample: a handler outcome that is a normal return of the empty
string is forwarded verbatim, so `handle_intent` returns the empty string,
contradicting "returns a non-empty string for every handler outcome". -/
theorem handle_intent_empty_response :
    (handle_intent (fun m _ _ => (HOutcome.ok "", m)) ⟨[], [], []⟩
        ⟨IntentType.QUESTION, 1, [], "hm", "en"⟩ "hm" "en" none).1 = "" := rfl

/-- A concrete external-collaborator table for closed evaluations; none of
its handlers is reached in the statements below. -/
def extStub : Ext :=
  ⟨fun m _ _ => (HOutcome.exn, m), fun m _ _ => (HOutcome.exn, m),
   fun m _ _ => (HOutcome.exn, m), fun m _ _ => (HOutcome.exn, m)⟩

/-- C3 (code bug evidence): a Movement intent from an *absent* caller skips
the role check of `_handle_movement` (it is guarded by `if current_user:`),
so the motion controller IS invoked and the "Okay, moving ..." string — not
the refusal — is returned, although the claim (and the code comment "Only
allow movement for authorized users") requires the friend-by-default refusal
with no movement side effect. -/
theorem movement_absent_caller_moves :
    (taskHandleIntent extStub ⟨[], [], []⟩
        ⟨IntentType.MOVEMENT, 1, [("direction", "forward")], "move forward", "en"⟩
        "move forward" "en" none).1 = "Okay, moving forward." ∧
    (taskHandleIntent extStub ⟨[], [], []⟩
        ⟨IntentType.MOVEMENT, 1, [("direction", "forward")], "move forward", "en"⟩
        "move forward" "en" none).2.motions = ["move_forward"] ∧
    movementRefusal "en" ≠ "Okay, moving forward." := by
  refine ⟨rfl, rfl, ?_⟩
  decide

/-- The part of C3 that does hold: a *present* caller whose stored role is
not principal/teacher/admin — including a caller unknown to the people table,
who defaults to role `friend` — gets the localized refusal and no motion
command is issued. -/
theorem movement_present_unprivileged_refused (ext : Ext) (m : Mem) (i : Intent)
    (text lang : String) (u : String)
    (hty : i.type = IntentType.MOVEMENT)
    (hu : u ≠ "")
    (hrole : ["principal", "teacher", "admin"].contains (roleOf m u) = false) :
    (taskHandleIntent ext m i text lang (some u)).1 = movementRefusal i.language ∧
    (taskHandleIntent ext m i text lang (some u)).2.motions = m.motions := by
  have hsf : u.isEmpty = false := by
    cases hs : u.isEmpty
    · rfl
    · exact absurd ((String.isEmpty_iff u).mp hs) hu
  have hne : (movementRefusal i.language).isEmpty = false := by
    unfold movementRefusal
    split <;> rfl
  unfold taskHandleIntent handle_intent
  dsimp only
  rw [hty]
  unfold roleOf at hrole
  simp only [handlerFor, movementH, truthy, Option.getD, addConversation, roleOf, hsf,
    Bool.not_false, if_true, hrole, hne, Bool.false_eq_true, if_false]
  exact ⟨trivial, trivial⟩

/-- C3 auxiliary witness closure for `movement_present_unprivileged_refused`:
an unknown-but-present caller (`"visitor"`, absent from the people table,
hence role `friend`) is refused and no motion is recorded. -/
theorem movement_present_unprivileged_refused_witness :
    (taskHandleIntent extStub ⟨[], [], []⟩
        ⟨IntentType.MOVEMENT, 1, [("direction", "forward")], "move forward", "en"⟩
        "move forward" "en" (some "visitor")).1 = movementRefusal "en" ∧
    (taskHandleIntent extStub ⟨[], [], []⟩
        ⟨IntentType.MOVEMENT, 1, [("direction", "forward")], "move forward", "en"⟩
        "move forward" "en" (some "visitor")).2.motions = [] :=
  movement_present_unprivileged_refused extStub ⟨[], [], []⟩
    ⟨IntentType.MOVEMENT, 1, [("direction", "forward")], "move forward", "en"⟩
    "move forward" "en" "visitor" rfl (by decide) rfl

/-- C8: handling a Greeting intent from an absent caller returns the generic,
non-personalized greeting of the intent's language, and the only state change
is the append of exactly two conversation records — the pre-response record
with no response text, then the post-response record carrying the response —
both with intent kind `greeting` and the same input text. -/
theorem greeting_unknown_caller (ext : Ext) (m : Mem) (i : Intent)
    (text lang : String) (ht : i.type = IntentType.GREETING) :
    taskHandleIntent ext m i text lang none =
      (genericGreeting i.language,
       { m with convs := m.convs ++
          [⟨none, text, lang, "greeting", none, none, i.confidence⟩,
           ⟨none, text, lang, "greeting", some (genericGreeting i.language),
            some lang, i.confidence⟩] }) := by
  have hne : (genericGreeting i.language).isEmpty = false := by
    unfold genericGreeting
    split <;> rfl
  unfold taskHandleIntent handle_intent
  dsimp only
  rw [ht]
  simp only [handlerFor, greetingH, truthy, Bool.false_eq_true, if_false, hne,
    addConversation, IntentType.value, List.append_assoc, List.singleton_append]

/-- C8 witness: the scenario of the spec — unknown caller, English
`"Hello, how are you?"`, Greeting intent — returns the generic English
greeting and appends exactly the two records. -/
theorem greeting_unknown_caller_witness :
    taskHandleIntent extStub ⟨[], [], []⟩
        ⟨IntentType.GREETING, 1, [], "hello, how are you?", "en"⟩
        "Hello, how are you?" "en" none =
      ("Hello! I\x27m your robot assistant. I\x27m ready to help you.",
       ⟨[], [⟨none, "Hello, how are you?", "en", "greeting", none, none, 1⟩,
             ⟨none, "Hello, how are you?", "en", "greeting",
              some "Hello! I\x27m your robot assistant. I\x27m ready to help you.",
              some "en", 1⟩], []⟩) := by
  have h := greeting_unknown_caller extStub ⟨[], [], []⟩
    ⟨IntentType.GREETING, 1, [], "hello, how are you?", "en"⟩
    "Hello, how are you?" "en" rfl
  simpa using h

/-- C10: the handler dict has no entry for `COMMAND` or `FACE_RECOGNITION`,
so `handle_intent` falls back to `_handle_unknown` for them and returns its
"didn't understand" message in the intent's language. -/
theorem command_face_route_unknown (ext : Ext) (m : Mem) (i : Intent)
    (text lang : String) (user : Option String)
    (hk : i.type = IntentType.COMMAND ∨ i.type = IntentType.FACE_RECOGNITION) :
    (taskHandleIntent ext m i text lang user).1 = unknownMessage i.language := by
  have hne : (unknownMessage i.language).isEmpty = false := by
    unfold unknownMessage
    split <;> rfl
  have hh : handlerFor ext i.type = unknownH := by
    rcases hk with h | h <;> rw [h] <;> rfl
  unfold taskHandleIntent handle_intent
  dsimp only
  rw [hh]
  simp only [unknownH, hne, Bool.false_eq_true, if_false]

/-- C10 witness: a `COMMAND` intent in English gets the Unknown handler's
message. -/
theorem command_face_route_unknown_witness :
    (taskHandleIntent extStub ⟨[], [], []⟩
        ⟨IntentType.COMMAND, 1, [], "do it", "en"⟩ "do it" "en" none).1 =
      unknownMessage "en" :=
  command_face_route_unknown extStub ⟨[], [], []⟩
    ⟨IntentType.COMMAND, 1, [], "do it", "en"⟩ "do it" "en" none (Or.inl rfl)

end RobotBrain
